import Mathlib

/-!
Verification development for `harvest.py` (Voyager MARC harvester).

The Python source is shallowly embedded below.  Conventions of the embedding:

* Python exceptions are modelled with `Except PyExn`; the distinct exception
  classes that matter to control flow (`HarvesterException` vs everything
  else) are distinguished by the `PyExn` constructors.
* `xml.etree.cElementTree` documents are modelled by the `XElem` tree; a
  file that fails to parse is modelled as `none : Option XElem`.
* External library calls whose results the program merely threads through
  (`xml.dom.minidom.parseString` + `toprettyxml`, `difflib.unified_diff`)
  are abstracted as the `PyLibs` parameter; a `render` result of `none`
  models the library call raising.
* `dateutil.parser.parse` is modelled as succeeding on any present string
  (timestamps are carried as their source text); it is modelled as raising
  when applied to `None`, as the real library does.
* Config-resolved paths are modelled as constant strings.
* Python's `finally: return x` semantics — which discards any in-flight
  exception and returns `x` — is modelled explicitly where the source uses
  it (`Record._make_diff`, `unpack_tarball`).
-/

deriving instance DecidableEq for Except

/-! ## Module constants (harvest.py, top of file) -/

def COLLECTION_END : String := "</collection>"

def MRX_NS : String := "http://www.loc.gov/MARC21/slim"

def COLLECTION_START : String := "<collection xmlns=\"" ++ MRX_NS ++ "\">"

def CREATE_UPDATE : String := "CREATE_UPDATE"

def DELETED : String := "deleted"

def NO_DIFFERENCE : String := "NO_DIFFERENCE"

def TAR_EXTENSION : String := "tar.gz"

def TMP_UNPACK : String := "tmp_unpack"

def FINAL_XML_DIR : String := "final_xml"

/-! ## Small Python string/list primitives, modelled over `List Char` so that
they evaluate in the kernel. -/

/-- Python `str.replace(pat, rep)`: scan left to right, replace every
non-overlapping occurrence.  (The source only calls it with a non-empty
pattern; the empty-pattern guard below just emits the character.)  The fuel
is the remaining input length: every step consumes at least one character,
so fuel equal to the input length computes the full replacement. -/
def replaceCharsAux (pat rep : List Char) : Nat → List Char → List Char
  | _, [] => []
  | 0, l => l
  | fuel + 1, c :: rest =>
    if pat.isPrefixOf (c :: rest) ∧ pat ≠ [] then
      rep ++ replaceCharsAux pat rep fuel ((c :: rest).drop pat.length)
    else
      c :: replaceCharsAux pat rep fuel rest

def pyReplace (s pat rep : String) : String :=
  ⟨replaceCharsAux pat.data rep.data s.data.length s.data⟩

/-- Python `sep.join(list)`. -/
def pyJoin (sep : String) : List String → String
  | [] => ""
  | [x] => x
  | x :: xs => x ++ sep ++ pyJoin sep xs

/-- Python `os.path.basename`: the component after the final slash. -/
def pyBasename (p : String) : String :=
  ⟨(p.data.reverse.takeWhile (fun c => c ≠ '/')).reverse⟩

/-- Python slicing `s[:-n]` for `n ≤ len(s)`. -/
def pyDropRight (s : String) (n : Nat) : String :=
  ⟨s.data.take (s.data.length - n)⟩

/-- Python `str.endswith`. -/
def pyEndsWith (s suffix : String) : Bool :=
  suffix.data.isSuffixOf s.data

/-- Lexicographic (code-point) comparison, Python's `<` on `str`. -/
def charListLt : List Char → List Char → Bool
  | [], [] => false
  | [], _ :: _ => true
  | _ :: _, [] => false
  | a :: as, b :: bs =>
    if a < b then true else if b < a then false else charListLt as bs

/-- Python's `<=` on `str`. -/
def strLe (a b : String) : Bool :=
  charListLt a.data b.data || a.data == b.data

/-- Stable ascending insertion of one element (used to model Python
`list.sort()`; the lists sorted by the source hold distinct file names, for
which every correct ascending sort agrees). -/
def insertLe {α : Type} (le : α → α → Bool) (a : α) : List α → List α
  | [] => [a]
  | b :: bs => if le a b then a :: b :: bs else b :: insertLe le a bs

/-- Ascending sort modelling Python `list.sort()`. -/
def isort {α : Type} (le : α → α → Bool) : List α → List α
  | [] => []
  | a :: as => insertLe le a (isort le as)

theorem mem_insertLe {α : Type} (le : α → α → Bool) (a x : α) (l : List α) :
    x ∈ insertLe le a l ↔ x = a ∨ x ∈ l := by
  induction l with
  | nil => simp [insertLe]
  | cons b bs ih =>
    cases hle : le a b with
    | true => simp [insertLe, hle, List.mem_cons]
    | false =>
      simp only [insertLe, hle, Bool.false_eq_true, if_false, List.mem_cons, ih]
      tauto

theorem mem_isort {α : Type} (le : α → α → Bool) (x : α) (l : List α) :
    x ∈ isort le l ↔ x ∈ l := by
  induction l with
  | nil => simp [isort]
  | cons a as ih => simp [isort, mem_insertLe, ih]

/-! ## Exceptions

`HarvesterException.__init__` quarantines the offending file as a side
effect; the other constructors stand for the ordinary Python exceptions the
source can raise (`AttributeError`/`IndexError` grouped as `plainExn` when
they escape a `try` block unwrapped, `NameError` from the unbound `t` in
`unpack_tarball`'s `finally`, `IOError` from a failing `shutil.move`,
`TypeError` from `None + os.linesep`). -/

inductive PyExn where
  | harvesterExn
  | plainExn
  | nameError
  | ioErrorExn
  | typeErrorExn
deriving DecidableEq, Repr

/-! ## XML documents (`xml.etree.cElementTree` model) -/

inductive XElem where
  | mk (tag : String) (attrs : List (String × String)) (text : Option String)
      (children : List XElem)

def XElem.tag : XElem → String
  | .mk t _ _ _ => t

def XElem.attrs : XElem → List (String × String)
  | .mk _ a _ _ => a

def XElem.text : XElem → Option String
  | .mk _ _ t _ => t

def XElem.children : XElem → List XElem
  | .mk _ _ _ c => c

mutual

/-- `ET.tostring(e, encoding='UTF-8')` with the XML prologue already stripped
(the source strips it via `.split('?>')[-1].strip()`).  Empty elements are
serialized in expanded form; namespaces are carried inside the tag/attribute
strings. -/
def serialize : XElem → String
  | .mk tag attrs text children =>
    "<" ++ tag ++ attrsString attrs ++ ">" ++ text.getD "" ++
      serializeList children ++ "</" ++ tag ++ ">"

def attrsString : List (String × String) → String
  | [] => ""
  | (k, v) :: rest => " " ++ k ++ "=\"" ++ v ++ "\"" ++ attrsString rest

def serializeList : List XElem → String
  | [] => ""
  | c :: cs => serialize c ++ serializeList cs

end

/-- Direct children with a given tag (ElementTree path-step semantics). -/
def findTagged (l : List XElem) (t : String) : List XElem :=
  l.filter (fun c => c.tag == t)

/-- `root.find('./ListRecords/record/header')` / `findall(...)[0]`: first
match in document order. -/
def findHeaderPath (root : XElem) : Option XElem :=
  (findTagged root.children "ListRecords").findSome? (fun lr =>
    (findTagged lr.children "record").findSome? (fun r =>
      (findTagged r.children "header").head?))

mutual

/-- `root.find('.//metadata/*')`: the first (document order) child of a
descendant `metadata` element, or `None`. -/
def firstMetaChild : XElem → Option XElem
  | .mk _ _ _ children => firstMetaChildList children

def firstMetaChildList : List XElem → Option XElem
  | [] => none
  | c :: cs =>
    (if c.tag = "metadata" then c.children.head? else none) <|>
      firstMetaChild c <|> firstMetaChildList cs

end

/-! ## Record static extraction methods -/

/-- `Record.extract_header_vals`: return `(identifier text, datestamp)`.
Every failure inside the `try` is wrapped into a `HarvesterException`
(which quarantines the file). -/
def extract_header_vals (doc : Option XElem) :
    Except PyExn (Option String × String) :=
  match doc with
  | none => .error .harvesterExn
  | some root =>
    match findHeaderPath root with
    | none => .error .harvesterExn
    | some header =>
      match (findTagged header.children "identifier").head? with
      | none => .error .harvesterExn
      | some identElem =>
        match (findTagged header.children "datestamp").head? with
        | none => .error .harvesterExn
        | some dsElem =>
          match dsElem.text with
          | none => .error .harvesterExn
          | some ds => .ok (identElem.text, ds)

/-- `Record.extract_marcxml`: serialize the first metadata child (namespace
declaration kept — only `extract_control_status_mrx` strips it). -/
def extract_marcxml (doc : Option XElem) : Except PyExn String :=
  match doc with
  | none => .error .harvesterExn
  | some root =>
    match firstMetaChild root with
    | none => .error .harvesterExn
    | some e => .ok (serialize e)

/-- `Record.extract_control_status_mrx`: a `(control, status, mrx)` triple.
Failures inside the `try` become `HarvesterException`s; but when the
metadata block is absent, `record_e` is `None` and the failure happens in
the `else` block (`ET.tostring(None)`), *outside* the `try`, so it escapes
as a plain exception without quarantining.  The status attribute is used
verbatim when truthy (non-empty); `CREATE_UPDATE` only when absent or
empty. -/
def extract_control_status_mrx (doc : Option XElem) :
    Except PyExn (Option String × String × String) :=
  match doc with
  | none => .error .harvesterExn
  | some root =>
    match findHeaderPath root with
    | none => .error .harvesterExn
    | some header =>
      match header.children.find? (fun c => c.tag == "identifier") with
      | none => .error .harvesterExn
      | some identElem =>
        let control := identElem.text
        let status :=
          match header.attrs.lookup "status" with
          | some s => if s = "" then CREATE_UPDATE else s
          | none => CREATE_UPDATE
        match firstMetaChild root with
        | none => .error .plainExn
        | some recordE =>
          .ok (control, status,
            pyReplace (serialize recordE) (" xmlns=\"" ++ MRX_NS ++ "\"") "")

/-! ## VersionHistory (`class Record`)

Library calls abstracted as parameters: `render` models
`xml.dom.minidom.parseString(s).toprettyxml(...).split('\n')` (`none`
models the library raising on malformed markup); `udiff` models
`difflib.unified_diff(prevLines, newLines, fromfiledate, tofiledate)`. -/

structure PyLibs where
  render : String → Option (List String)
  udiff : List String → List String → String → String → List String

/-- The `try` block of `Record._make_diff`, in source order: compare, render
previous, take `prev_date.isoformat()` (raises on `None`), render new, take
`new_date.isoformat()`, join the unified diff.  `.error ()` models an
exception in flight; `.ok d` models the block completing with local
variable `diff = d`. -/
def make_diffBody (libs : PyLibs) (prev : Option String) (new : String)
    (prevDate : Option String) (newDate : String) :
    Except Unit (Option String) :=
  match prev with
  | some p =>
    if p = new then .ok (some NO_DIFFERENCE)
    else
      match libs.render p with
      | none => .error ()
      | some prevLines =>
        match prevDate with
        | none => .error ()
        | some pd =>
          match libs.render new with
          | none => .error ()
          | some newLines =>
            .ok (some (pyJoin "\n" (libs.udiff prevLines newLines pd newDate)))
  | none =>
    -- `None == new_xml_str` is `False`; `parseString(None)` then raises.
    .error ()

/-- `Record._make_diff`.  The source ends with `finally: return diff`,
which in Python discards any in-flight exception (including the one the
`except` clause just re-raised) and returns the current value of the local
`diff` — `None` on every exceptional path, since `diff` is initialized to
`None` and only assigned on success.  So the method is total and never
raises. -/
def make_diff (libs : PyLibs) (prev : Option String) (new : String)
    (prevDate : Option String) (newDate : String) : Option String :=
  match make_diffBody libs prev new prevDate newDate with
  | .ok d => d
  | .error _ => none

/-- One diff entry: `(self.last_mod, diff)` as appended by `add_version`. -/
abbrev DiffEntry := String × Option String

/-- Python evaluates a `def`'s default argument once, at definition time;
`Record.__init__(..., diffs=[], ...)` therefore shares a single list object
across every default-construced instance.  The heap holds the list objects;
cell `0` is that one shared default list, allocated when the class is
defined. -/
structure PyHeap where
  cells : List (List DiffEntry)

/-- The module-level state right after `class Record` is defined: only the
shared default `diffs` list exists, empty. -/
def initHeap : PyHeap := ⟨[[]]⟩

/-- A `Record` object; `diffsCell` is the identity of the list object bound
to `self.diffs`. -/
structure RecordObj where
  control_no : Option String
  last_mod : Option String
  diffsCell : Nat
  first_version : Option String
  current_version : Option String

/-- `Record()` — every default argument, so `self.diffs` is the shared
default list (cell `0`). -/
def mkRecordDefault : RecordObj := ⟨none, none, 0, none, none⟩

/-- Allocate a fresh empty list and build a `Record` holding it — models
`Record(diffs=[])` with an explicit new list at the call site. -/
def mkRecordFresh (h : PyHeap) : PyHeap × RecordObj :=
  (⟨h.cells ++ [[]]⟩, ⟨none, none, h.cells.length, none, none⟩)

/-- `Record.add_version(xml_fp)`.  Faithful to source order:
`ET.parse`(plain exception on failure), `extract_header_vals`, set
`control_no` if unset, `extract_marcxml`, then either install the first
version or append `(new_last_mod, diff)` to the `diffs` list object and
advance `current_version`. -/
def add_version (libs : PyLibs) (h : PyHeap) (r : RecordObj)
    (doc : Option XElem) : Except PyExn (PyHeap × RecordObj) :=
  match doc with
  | none => .error .plainExn
  | some _ =>
    match extract_header_vals doc with
    | .error e => .error e
    | .ok (control_no, new_last_mod) =>
      let r1 := if r.control_no.isNone then { r with control_no := control_no } else r
      match extract_marcxml doc with
      | .error e => .error e
      | .ok new_mrx =>
        if r1.first_version.isNone then
          .ok (h, { r1 with
            last_mod := some new_last_mod,
            first_version := some new_mrx,
            current_version := some new_mrx })
        else
          let diff := make_diff libs r1.current_version new_mrx r1.last_mod new_last_mod
          let h1 : PyHeap :=
            ⟨h.cells.set r1.diffsCell
              ((h.cells.getD r1.diffsCell []) ++ [(new_last_mod, diff)])⟩
          .ok (h1, { r1 with
            last_mod := some new_last_mod,
            current_version := some new_mrx })

/-! ## QuarantineSink (`HarvesterException.__init__` collision naming)

`os.path.exists` is modelled as membership in the list of names already
present in the error directory.  The source's `while` loop appends `-c` to
the *whole current candidate* (`new_path = '%s-%d' % (new_path, c)`), not
to the original base name.  Each iteration strictly lengthens the
candidate, so `existing.length + 1` iterations always suffice; the fuel
below is exactly that bound and is proven never to run out. -/

def suffixName (path : String) (c : Nat) : String :=
  path ++ "-" ++ toString c

def quarantineLoop (existing : List String) : Nat → String → Nat → String
  | 0, path, _ => path
  | fuel + 1, path, c =>
    if path ∈ existing then quarantineLoop existing fuel (suffixName path c) (c + 1)
    else path

/-- The destination name `HarvesterException.__init__` moves the file to. -/
def quarantineDest (existing : List String) (base : String) : String :=
  quarantineLoop existing (existing.length + 1) base 0

/-- The k-th candidate name tried by the loop: `base`, `base-0`,
`base-0-1`, `base-0-1-2`, … -/
def cumName (base : String) : Nat → String
  | 0 => base
  | k + 1 => suffixName (cumName base k) k

/-! ## BatchDiscovery (`unpack_tarball`, `process_tarball_dir`)

The tarfile library interaction is abstracted to the three outcomes the
control flow distinguishes: extraction succeeds; `t.extractall` fails
midway; `tarfile.open` itself fails (leaving local `t` unbound). -/

inductive TarOutcome where
  | ok
  | openFail
  | extractFail
deriving DecidableEq, Repr

structure UnpackResult where
  tarQuarantined : Bool
  tmpRemoved : Bool
  tarRemoved : Bool
  result : Except PyExn String
deriving DecidableEq, Repr

/-- `to_dir`: `TMP_UNPACK` joined with the archive name minus
`.tar.gz`. -/
def toDirOf (name : String) : String :=
  TMP_UNPACK ++ "/" ++ pyDropRight name (TAR_EXTENSION.length + 1)

/-- `unpack_tarball`.

* success: extract, log, `os.remove(tarfile_fp)`, `finally` returns
  `to_dir`.
* `extractall` fails: partial members removed, `to_dir` removed,
  `HarvesterException` constructed (quarantining the archive) and raised —
  but the `finally` block's `return to_dir` discards the in-flight
  exception and returns the (just removed) directory path.
* `open` fails: same cleanup and quarantine, but local `t` was never
  bound, so `t.close()` in the `finally` raises `NameError`, which
  replaces the `HarvesterException` and propagates (the `return` is never
  reached). -/
def unpack_tarball (name : String) (outcome : TarOutcome) : UnpackResult :=
  let to_dir := toDirOf name
  match outcome with
  | .ok => ⟨false, false, true, .ok to_dir⟩
  | .extractFail => ⟨true, true, false, .ok to_dir⟩
  | .openFail => ⟨true, true, false, .error .nameError⟩

/-- The `for tar_fp in tar_fps` loop of `process_tarball_dir`.  A
`HarvesterException` from `unpack_tarball` would be passed over; any other
escaping exception is wrapped via `raise HarvesterException(e, tar_fp)`,
whose `__init__` calls `shutil.move` on the already-quarantined archive —
that move raises `IOError`, which propagates and aborts the whole loop
(the trailing `continue` is unreachable). -/
def unpackLoop : List (String × TarOutcome) → Except PyExn (List String)
  | [] => .ok []
  | (name, oc) :: rest =>
    match (unpack_tarball name oc).result with
    | .ok dp =>
      match unpackLoop rest with
      | .ok dps => .ok (dp :: dps)
      | .error e => .error e
    | .error .harvesterExn => unpackLoop rest
    | .error _ => .error .ioErrorExn

/-- `process_tarball_dir`: filter `*.tar.gz`, unpack each, sort the
resulting directory list ascending. -/
def process_tarball_dir (tars : List (String × TarOutcome)) :
    Except PyExn (List String) :=
  match unpackLoop (tars.filter (fun t => pyEndsWith t.1 TAR_EXTENSION)) with
  | .ok dps => .ok (isort strLe dps)
  | .error e => .error e

/-! ## BatchAssembler (`process_file_dir`) -/

/-- One file of a batch directory: its name and its parse result. -/
structure FileEntry where
  name : String
  doc : Option XElem

structure BatchResult where
  outFile : Option (String × List String)
  ledger : List String
  remaining : List String
  quarantined : List String
  dirRemoved : Bool
  escaped : Option PyExn

/-- The `for xml_fp in xml_fps` loop body, returning
`(chunks written, ledger appends, quarantined names, names left in the
directory, escaping exception)`.

* `HarvesterException` from the reader: already quarantined, `pass`.
* any other exception from the reader (e.g. missing metadata block):
  `raise HarvesterException(e, xml_fp)` quarantines the file and the new
  exception propagates, aborting the batch (the `continue` after it is
  unreachable).
* status `deleted` with `control` present: ledger append, no collection
  write, `os.remove`.
* status `deleted` with `control = None`: `control + os.linesep` raises
  `TypeError`, aborting the batch before `os.remove`.
* any other status: write `mrx` to the collection, `os.remove`. -/
def batchLoop : List FileEntry →
    List String × List String × List String × List String × Option PyExn
  | [] => ([], [], [], [], none)
  | f :: fs =>
    match extract_control_status_mrx f.doc with
    | .error .harvesterExn =>
      let (cs, ls, qs, rem, esc) := batchLoop fs
      (cs, ls, f.name :: qs, rem, esc)
    | .error _ =>
      ([], [], [f.name], fs.map (fun g => g.name), some .harvesterExn)
    | .ok (control, status, mrx) =>
      if status = DELETED then
        match control with
        | none =>
          ([], [], [], f.name :: fs.map (fun g => g.name), some .typeErrorExn)
        | some c =>
          let (cs, ls, qs, rem, esc) := batchLoop fs
          (cs, c :: ls, qs, rem, esc)
      else
        let (cs, ls, qs, rem, esc) := batchLoop fs
        (mrx :: cs, ls, qs, rem, esc)

/-- `process_file_dir(dp)`: sort the directory listing ascending; if it is
empty, create no output document and remove the directory; otherwise open
`FINAL_XML_DIR/<basename dp>.mrx`, write the collection opening tag, run
the loop, and — only if no exception escaped — write the closing tag and
remove the directory. -/
def process_file_dir (dp : String) (files : List FileEntry) : BatchResult :=
  let sorted := isort (fun a b => strLe a.name b.name) files
  if sorted.isEmpty then
    ⟨none, [], [], [], true, none⟩
  else
    let out_fp := FINAL_XML_DIR ++ "/" ++ pyBasename dp ++ ".mrx"
    let (cs, ls, qs, rem, esc) := batchLoop sorted
    match esc with
    | none => ⟨some (out_fp, COLLECTION_START :: cs ++ [COLLECTION_END]), ls, rem, qs, true, none⟩
    | some e => ⟨some (out_fp, COLLECTION_START :: cs), ls, rem, qs, false, some e⟩

/-! ## Quarantine naming: termination measure and first-free
characterization -/

/-- Number of names in the error directory at least as long as the current
candidate; it strictly drops at every loop iteration. -/
def qMeasure (existing : List String) (path : String) : Nat :=
  (existing.filter (fun x => path.length ≤ x.length)).length

theorem length_suffixName (path : String) (c : Nat) :
    path.length < (suffixName path c).length := by
  have h1 : ("-" : String).length = 1 := rfl
  simp only [suffixName, String.length_append, h1]
  omega

theorem qMeasure_lt (existing : List String) (path : String) (c : Nat)
    (hmem : path ∈ existing) :
    qMeasure existing (suffixName path c) < qMeasure existing path := by
  have hlen := length_suffixName path c
  have hsub :
      List.Sublist
        (existing.filter (fun x => (suffixName path c).length ≤ x.length))
        (existing.filter (fun x => path.length ≤ x.length)) := by
    apply List.monotone_filter_right
    intro a ha
    simp only [decide_eq_true_eq] at ha ⊢
    omega
  have hin : path ∈ existing.filter (fun x => path.length ≤ x.length) := by
    simp [List.mem_filter, hmem]
  have hout :
      path ∉ existing.filter (fun x => (suffixName path c).length ≤ x.length) := by
    simp only [List.mem_filter, decide_eq_true_eq]
    intro h
    omega
  have hne :
      existing.filter (fun x => (suffixName path c).length ≤ x.length) ≠
        existing.filter (fun x => path.length ≤ x.length) := by
    intro h
    rw [h] at hout
    exact hout hin
  have hle := hsub.length_le
  rcases Nat.lt_or_ge
      (existing.filter (fun x => (suffixName path c).length ≤ x.length)).length
      (existing.filter (fun x => path.length ≤ x.length)).length with h | h
  · exact h
  · exact absurd (hsub.eq_of_length (Nat.le_antisymm hle h)) hne

theorem quarantineLoop_not_mem (existing : List String) :
    ∀ (fuel : Nat) (path : String) (c : Nat),
      qMeasure existing path < fuel →
      quarantineLoop existing fuel path c ∉ existing := by
  intro fuel
  induction fuel with
  | zero => intro path c h; omega
  | succ n ih =>
    intro path c h
    simp only [quarantineLoop]
    by_cases hmem : path ∈ existing
    · simp only [hmem, if_true]
      apply ih
      have := qMeasure_lt existing path c hmem
      omega
    · rw [if_neg hmem]
      exact hmem

theorem quarantineDest_not_mem (existing : List String) (base : String) :
    quarantineDest existing base ∉ existing := by
  apply quarantineLoop_not_mem
  have : qMeasure existing base ≤ existing.length := List.length_filter_le _ _
  omega

theorem quarantineLoop_firstFree (existing : List String) (base : String) :
    ∀ (fuel c : Nat),
      qMeasure existing (cumName base c) < fuel →
      (∀ j < c, cumName base j ∈ existing) →
      ∃ k, quarantineLoop existing fuel (cumName base c) c = cumName base k ∧
        cumName base k ∉ existing ∧ ∀ j < k, cumName base j ∈ existing := by
  intro fuel
  induction fuel with
  | zero => intro c h _; omega
  | succ n ih =>
    intro c h hall
    simp only [quarantineLoop]
    by_cases hmem : cumName base c ∈ existing
    · simp only [hmem, if_true]
      have hstep : suffixName (cumName base c) c = cumName base (c + 1) := rfl
      rw [hstep]
      apply ih
      · have := qMeasure_lt existing (cumName base c) c hmem
        rw [hstep] at this
        omega
      · intro j hj
        rcases Nat.lt_or_ge j c with hj2 | hj2
        · exact hall j hj2
        · have : j = c := by omega
          rw [this]
          exact hmem
    · exact ⟨c, by simp [hmem], hmem, hall⟩

/-! ## BatchAssembler characterization (no-abort batches) -/

/-- A file on which the batch loop raises something other than the
pass-handled `HarvesterException`: a reader failure escaping as a plain
exception (missing metadata block), or a successfully parsed DELETED file
whose control number is `None` (making `control + os.linesep` raise). -/
def fileAborts (f : FileEntry) : Bool :=
  match extract_control_status_mrx f.doc with
  | .error .harvesterExn => false
  | .error _ => true
  | .ok (control, status, _) => status == DELETED && control.isNone

/-- The collection-document chunk a file contributes (CREATE_UPDATE-like
statuses only). -/
def okCU (f : FileEntry) : Option String :=
  match extract_control_status_mrx f.doc with
  | .ok (_, status, mrx) => if status = DELETED then none else some mrx
  | .error _ => none

/-- The deletion-ledger entry a file contributes. -/
def okDel (f : FileEntry) : Option String :=
  match extract_control_status_mrx f.doc with
  | .ok (control, status, _) => if status = DELETED then control else none
  | .error _ => none

/-- The quarantine entry a file contributes via the pass-handled
`HarvesterException`. -/
def quarName (f : FileEntry) : Option String :=
  match extract_control_status_mrx f.doc with
  | .error .harvesterExn => some f.name
  | _ => none

theorem batchLoop_no_abort :
    ∀ fs : List FileEntry, (∀ f ∈ fs, fileAborts f = false) →
      batchLoop fs =
        (fs.filterMap okCU, fs.filterMap okDel, fs.filterMap quarName, [], none) := by
  intro fs
  induction fs with
  | nil => intro _; rfl
  | cons f fs ih =>
    intro h
    have hf : fileAborts f = false := h f (List.mem_cons_self f fs)
    have hrest := ih (fun g hg => h g (List.mem_cons_of_mem f hg))
    simp only [batchLoop, List.filterMap_cons, okCU, okDel, quarName, fileAborts] at hf ⊢
    rcases hx : extract_control_status_mrx f.doc with e | ⟨control, status, mrx⟩
    · cases e with
      | harvesterExn => simp [hx, hrest]
      | plainExn => rw [hx] at hf; simp at hf
      | nameError => rw [hx] at hf; simp at hf
      | ioErrorExn => rw [hx] at hf; simp at hf
      | typeErrorExn => rw [hx] at hf; simp at hf
    · rw [hx] at hf
      by_cases hst : status = DELETED
      · rcases control with _ | c
        · simp [hst, Option.isNone] at hf
        · simp [hx, hst, hrest]
      · simp [hx, hst, hrest]

/-! ## Concrete documents and library instantiations used by the claim
theorems -/

def sampleHeader (ident ds : String) : XElem :=
  .mk "header" [] none
    [.mk "identifier" [] (some ident) [], .mk "datestamp" [] (some ds) []]

def sampleDoc (ident ds : String) (payloads : List XElem) : XElem :=
  .mk "OAI" [] none
    [.mk "ListRecords" [] none
      [.mk "record" [] none
        [sampleHeader ident ds, .mk "metadata" [] none payloads]]]

/-- Library instantiation whose canonical rendering succeeds trivially. -/
def libsId : PyLibs := ⟨fun s => some [s], fun a b _ _ => a ++ b⟩

/-- Library instantiation whose canonical rendering always raises — the
behavior of `minidom.parseString` on malformed markup. -/
def libsBad : PyLibs := ⟨fun _ => none, fun _ _ _ _ => []⟩

def payload1 : XElem := .mk "rec1" [] (some "x") []

def payload2 : XElem := .mk "rec2" [] (some "x") []

/-- An envelope whose `metadata` block is missing: the reader fails outside
its `try`, escaping as a plain (non-quarantining) exception. -/
def docMetaMissing : XElem :=
  .mk "OAI" [] none
    [.mk "ListRecords" [] none
      [.mk "record" [] none [sampleHeader "c0" "d0"]]]

/-- A well-formed envelope with `status="deleted"` and control number
`123`. -/
def docDeleted : XElem :=
  .mk "OAI" [] none
    [.mk "ListRecords" [] none
      [.mk "record" [] none
        [.mk "header" [("status", "deleted")] none
          [.mk "identifier" [] (some "123") [],
           .mk "datestamp" [] (some "d1") []],
         .mk "metadata" [] none [payload1]]]]

def hdrBogus : XElem :=
  .mk "header" [("status", "bogus")] none
    [.mk "identifier" [] (some "c1") [], .mk "datestamp" [] (some "d1") []]

/-- A well-formed envelope with the unrecognized status value `bogus`. -/
def docBogus : XElem :=
  .mk "OAI" [] none
    [.mk "ListRecords" [] none
      [.mk "record" [] none [hdrBogus, .mk "metadata" [] none [payload1]]]]

/-! ## Claim theorems -/

/-- C1: the claim says an exception raised while computing the diff is
raised to `add_version`'s caller, and only without an exception may the
final diff be `None`.  The code behaves otherwise: `_make_diff`'s
`finally: return diff` discards the in-flight exception, so with payloads
whose canonical rendering raises (`libsBad`), the `try` body raises
(first conjunct) yet `_make_diff` returns `None` (second conjunct) and
`add_version` completes normally, recording `(timestamp, None)` as the
diff (third conjunct). -/
theorem c1_finally_swallows_diff_exception :
    make_diffBody libsBad (some "<rec1>x</rec1>") "<rec2>x</rec2>"
      (some "d1") "d2" = .error () ∧
    make_diff libsBad (some "<rec1>x</rec1>") "<rec2>x</rec2>"
      (some "d1") "d2" = none ∧
    (do
      let (h1, ra) ← add_version libsBad initHeap mkRecordDefault
        (some (sampleDoc "c1" "d1" [payload1]))
      let (h2, _) ← add_version libsBad h1 ra
        (some (sampleDoc "c1" "d2" [payload2]))
      pure (h2.cells.getD 0 [])) =
    Except.ok [("d2", none)] :=
  ⟨rfl, rfl, rfl⟩

/-- C2: the claim says a failed archive's directory never appears in the
batch list and remaining archives are still processed.  The code behaves
otherwise.  When `extractall` fails, `unpack_tarball`'s `finally: return
to_dir` swallows the raised `HarvesterException` and the (already removed)
directory of the failed archive is appended to the batch list (first
conjunct) — although the archive was quarantined and the partial directory
cleaned (second, third conjuncts).  When `tarfile.open` itself fails,
`t.close()` in the `finally` raises `NameError` (local `t` unbound), the
wrapping `raise HarvesterException(e, tar_fp)` in `process_tarball_dir`
then fails with `IOError` (the archive was already moved), and the whole
discovery loop aborts, so the remaining archives are not processed
(fourth conjunct). -/
theorem c2_expansion_failure_not_isolated :
    process_tarball_dir [("a.tar.gz", .extractFail), ("b.tar.gz", .ok)] =
      .ok ["tmp_unpack/a", "tmp_unpack/b"] ∧
    (unpack_tarball "a.tar.gz" .extractFail).tarQuarantined = true ∧
    (unpack_tarball "a.tar.gz" .extractFail).tmpRemoved = true ∧
    process_tarball_dir [("a.tar.gz", .openFail), ("b.tar.gz", .ok)] =
      .error .ioErrorExn :=
  ⟨rfl, rfl, rfl, rfl⟩

/-- C3: the claim says every freshly constructed `Record` owns an
independent empty `diffs` sequence, and with `n` snapshots added `diffs`
has `n - 1` entries.  The code behaves otherwise: the default argument
`diffs=[]` is evaluated once at class-definition time, so all
default-constructed instances share one list.  After two snapshots are
added to one default-constructed instance, a second, freshly constructed
`Record()` — zero snapshots added — already sees one entry in its `diffs`
list instead of the empty sequence the claim requires. -/
theorem c3_shared_default_diffs_list :
    (do
      let (h1, ra) ← add_version libsId initHeap mkRecordDefault
        (some (sampleDoc "c1" "d1" [payload1]))
      let (h2, _) ← add_version libsId h1 ra
        (some (sampleDoc "c1" "d2" [payload2]))
      pure ((h2.cells.getD mkRecordDefault.diffsCell []).length)) =
    Except.ok 1 :=
  rfl

/-- C4 counterexample: the claim says suffixes `-0`, `-1`, … are appended
to the base name, the k-th collision receiving `<basename>-<k-1>` — so the
third quarantine of base name `f` (with `f` and `f-0` already present)
would receive `f-1`.  The code appends the counter to the whole current
candidate, producing `f-0-1` instead. -/
theorem c4_cumulative_suffix_counterexample :
    quarantineDest ["f", "f-0"] "f" = "f-0-1" ∧ ("f-0-1" : String) ≠ "f-1" :=
  ⟨rfl, by decide⟩

/-- C4 (amended): the candidate names are built cumulatively — `base`,
`base-0`, `base-0-1`, `base-0-1-2`, … — each new suffix appended to the
previously tried candidate, and the destination is the first name in that
sequence not already present in the error directory. -/
theorem c4_first_free_cumulative_name (existing : List String) (base : String) :
    ∃ k, quarantineDest existing base = cumName base k ∧
      cumName base k ∉ existing ∧ ∀ j < k, cumName base j ∈ existing := by
  have h := quarantineLoop_firstFree existing base (existing.length + 1) 0 ?_ ?_
  · exact h
  · have : qMeasure existing (cumName base 0) ≤ existing.length :=
      List.length_filter_le _ _
    omega
  · intro j hj
    omega

/-- C8: no quarantine overwrites an existing file: the chosen destination
name is never already present in the error directory, and a second
quarantine (any base name, in particular the same one) picks a name
distinct from the first and from everything older. -/
theorem c8_quarantine_never_overwrites (existing : List String)
    (base1 base2 : String) :
    quarantineDest existing base1 ∉ existing ∧
    quarantineDest (quarantineDest existing base1 :: existing) base2 ≠
      quarantineDest existing base1 ∧
    quarantineDest (quarantineDest existing base1 :: existing) base2 ∉ existing := by
  have h1 := quarantineDest_not_mem existing base1
  have h2 := quarantineDest_not_mem
    (quarantineDest existing base1 :: existing) base2
  simp only [List.mem_cons, not_or] at h2
  exact ⟨h1, h2.1, h2.2⟩

/-- C9: processing an empty batch directory creates no output collection
document, removes the directory, and raises no error. -/
theorem c9_empty_batch (dp : String) :
    process_file_dir dp [] =
      ⟨none, [], [], [], true, none⟩ :=
  rfl

/-- C5 counterexample: the claim says a metadata block containing more
than one payload element makes the record reader fail.  The code's
`root.find('.//metadata/*')` returns the first match, so a document with
two payload elements is read successfully. -/
theorem c5_two_payload_elements_accepted :
    (extract_control_status_mrx
      (some (sampleDoc "c1" "d1" [payload1, payload2]))).isOk = true :=
  rfl


/-- C5 (amended): the reader succeeds exactly when the document parses,
the envelope header path resolves, an `identifier` child exists, and the
metadata block yields at least a first payload element (extra payload
elements are tolerated: the first one is used).  An absent metadata block
fails with a plain exception raised outside the reader's `try` (no
quarantine from the reader itself); an unparseable document, a missing
header, or a missing identifier fail with the quarantining
`HarvesterException`. -/
theorem c5_reader_failure_characterization (doc : Option XElem) :
    ((extract_control_status_mrx doc).isOk = true ↔
      ∃ root header, doc = some root ∧ findHeaderPath root = some header ∧
        (header.children.find? (fun ch => ch.tag == "identifier")).isSome = true ∧
        (firstMetaChild root).isSome = true) ∧
    (extract_control_status_mrx doc = .error .plainExn ↔
      ∃ root header, doc = some root ∧ findHeaderPath root = some header ∧
        (header.children.find? (fun ch => ch.tag == "identifier")).isSome = true ∧
        firstMetaChild root = none) ∧
    (∀ root, doc = some root →
      (findHeaderPath root = none ∨
        ∃ header, findHeaderPath root = some header ∧
          header.children.find? (fun ch => ch.tag == "identifier") = none) →
      extract_control_status_mrx doc = .error .harvesterExn) ∧
    (doc = none → extract_control_status_mrx doc = .error .harvesterExn) := by
  cases doc with
  | none =>
    refine ⟨?_, ?_, ?_, ?_⟩
    · constructor
      · intro h
        cases h
      · rintro ⟨root2, header2, hr2, _⟩
        cases hr2
    · constructor
      · intro h
        cases h
      · rintro ⟨root2, header2, hr2, _⟩
        cases hr2
    · intro root2 hr2 _
      cases hr2
    · intro _
      rfl
  | some root =>
    rcases hh : findHeaderPath root with _ | header
    · have hx : extract_control_status_mrx (some root) = .error .harvesterExn := by
        simp [extract_control_status_mrx, hh]
      refine ⟨?_, ?_, ?_, ?_⟩
      · rw [hx]
        constructor
        · intro h
          cases h
        · rintro ⟨root2, header2, hr2, hh2, _⟩
          cases hr2
          rw [hh] at hh2
          cases hh2
      · rw [hx]
        constructor
        · intro h
          cases h
        · rintro ⟨root2, header2, hr2, hh2, _⟩
          cases hr2
          rw [hh] at hh2
          cases hh2
      · intro root2 hr2 _
        cases hr2
        exact hx
      · intro h
        cases h
    · rcases hi : header.children.find? (fun ch => ch.tag == "identifier")
        with _ | identElem
      · have hx : extract_control_status_mrx (some root) = .error .harvesterExn := by
          simp [extract_control_status_mrx, hh, hi]
        refine ⟨?_, ?_, ?_, ?_⟩
        · rw [hx]
          constructor
          · intro h
            cases h
          · rintro ⟨root2, header2, hr2, hh2, hi2, _⟩
            cases hr2
            rw [hh] at hh2
            cases hh2
            rw [hi] at hi2
            cases hi2
        · rw [hx]
          constructor
          · intro h
            cases h
          · rintro ⟨root2, header2, hr2, hh2, hi2, _⟩
            cases hr2
            rw [hh] at hh2
            cases hh2
            rw [hi] at hi2
            cases hi2
        · intro root2 hr2 _
          cases hr2
          exact hx
        · intro h
          cases h
      · rcases hm : firstMetaChild root with _ | payloadFirst
        · have hx : extract_control_status_mrx (some root) = .error .plainExn := by
            simp [extract_control_status_mrx, hh, hi, hm]
          refine ⟨?_, ?_, ?_, ?_⟩
          · rw [hx]
            constructor
            · intro h
              cases h
            · rintro ⟨root2, header2, hr2, hh2, _, hm2⟩
              cases hr2
              rw [hm] at hm2
              simp at hm2
          · rw [hx]
            constructor
            · intro _
              exact ⟨root, header, rfl, hh, by rw [hi]; rfl, hm⟩
            · intro _
              rfl
          · intro root2 hr2 hcase
            cases hr2
            rcases hcase with h | ⟨header2, hh2, hi2⟩
            · rw [hh] at h
              cases h
            · rw [hh] at hh2
              cases hh2
              rw [hi] at hi2
              cases hi2
          · intro h
            cases h
        · have hx : extract_control_status_mrx (some root) =
              .ok (identElem.text,
                (match header.attrs.lookup "status" with
                  | some s => if s = "" then CREATE_UPDATE else s
                  | none => CREATE_UPDATE),
                pyReplace (serialize payloadFirst)
                  (" xmlns=\"" ++ MRX_NS ++ "\"") "") := by
            simp [extract_control_status_mrx, hh, hi, hm]
          refine ⟨?_, ?_, ?_, ?_⟩
          · rw [hx]
            constructor
            · intro _
              exact ⟨root, header, rfl, hh, by rw [hi]; rfl, by rw [hm]; rfl⟩
            · intro _
              rfl
          · rw [hx]
            constructor
            · intro h
              cases h
            · rintro ⟨root2, header2, hr2, hh2, _, hm2⟩
              cases hr2
              rw [hm] at hm2
              cases hm2
          · intro root2 hr2 hcase
            cases hr2
            rcases hcase with h | ⟨header2, hh2, hi2⟩
            · rw [hh] at h
              cases h
            · rw [hh] at hh2
              cases hh2
              rw [hi] at hi2
              cases hi2
          · intro h
            cases h

/-- C6 counterexample: the claim says any unrecognized status attribute
defaults to CREATE_UPDATE, so the extracted status is always in
{CREATE_UPDATE, DELETED}.  The code keeps a truthy (non-empty) status
attribute verbatim: a file with `status="bogus"` parses successfully with
status `bogus`, outside the claimed enumeration. -/
theorem c6_unrecognized_status_kept_verbatim :
    extract_control_status_mrx (some docBogus) =
      .ok (some "c1", "bogus", "<rec1>x</rec1>") ∧
    ("bogus" : String) ≠ CREATE_UPDATE ∧ ("bogus" : String) ≠ DELETED :=
  ⟨rfl, by decide, by decide⟩

/-- C6 (amended): on a successful parse the extracted status is
CREATE_UPDATE exactly when the header's status attribute is absent or
empty (Python falsy); a non-empty attribute value is kept verbatim,
whether or not it is a recognized status. -/
theorem c6_status_extraction (doc : Option XElem) (root header : XElem)
    (c : Option String) (st m : String)
    (hdoc : doc = some root) (hhdr : findHeaderPath root = some header)
    (hok : extract_control_status_mrx doc = .ok (c, st, m)) :
    ((header.attrs.lookup "status" = none ∨
        header.attrs.lookup "status" = some "") → st = CREATE_UPDATE) ∧
    ∀ s, header.attrs.lookup "status" = some s → s ≠ "" → st = s := by
  subst hdoc
  rcases hi : header.children.find? (fun ch => ch.tag == "identifier")
    with _ | identElem
  · simp [extract_control_status_mrx, hhdr, hi] at hok
  · rcases hm : firstMetaChild root with _ | payloadFirst
    · simp [extract_control_status_mrx, hhdr, hi, hm] at hok
    · simp only [extract_control_status_mrx, hhdr, hi, hm, Except.ok.injEq,
        Prod.mk.injEq] at hok
      rcases hok with ⟨_, hst, _⟩
      constructor
      · intro hcase
        rcases hcase with h | h
        · rw [h] at hst
          have hst2 : CREATE_UPDATE = st := hst
          exact hst2.symm
        · rw [h] at hst
          have hst2 : (if ("" : String) = "" then CREATE_UPDATE else "") = st := hst
          rw [if_pos rfl] at hst2
          exact hst2.symm
      · intro s hs hne
        rw [hs] at hst
        have hst2 : (if s = "" then CREATE_UPDATE else s) = st := hst
        rw [if_neg hne] at hst2
        exact hst2.symm

/-- C6 witness: the amended theorem applied to `docBogus`, whose header
carries `status="bogus"`. -/
theorem c6_status_extraction_witness :
    extract_control_status_mrx (some docBogus) =
      .ok (some "c1", "bogus", "<rec1>x</rec1>") ∧
    findHeaderPath docBogus = some hdrBogus ∧
    ("bogus" : String) = "bogus" :=
  ⟨rfl, rfl,
    (c6_status_extraction (some docBogus) docBogus hdrBogus
      (some "c1") "bogus" "<rec1>x</rec1>" rfl rfl rfl).2 "bogus" rfl
      (by decide)⟩

/-- C7 counterexample: the claim quantifies over every successfully parsed
DELETED file in a batch, but a batch whose earlier file fails with a
non-`HarvesterException` error (here: a missing metadata block, whose
failure arises outside the reader's `try`) is aborted by
`raise HarvesterException(e, xml_fp)` — the `continue` after it is
unreachable — so a later DELETED file (`b.xml`, control number `123`,
shown successfully parsed by the first conjunct) is never processed: the
ledger stays empty, the file stays in the batch directory, and the
directory is not removed. -/
theorem c7_abort_leaves_deleted_file_unprocessed :
    extract_control_status_mrx (some docDeleted) =
      .ok (some "123", DELETED, "<rec1>x</rec1>") ∧
    (process_file_dir "u/b1"
      [⟨"a.xml", some docMetaMissing⟩, ⟨"b.xml", some docDeleted⟩]).ledger = [] ∧
    (process_file_dir "u/b1"
      [⟨"a.xml", some docMetaMissing⟩, ⟨"b.xml", some docDeleted⟩]).remaining =
      ["b.xml"] ∧
    (process_file_dir "u/b1"
      [⟨"a.xml", some docMetaMissing⟩, ⟨"b.xml", some docDeleted⟩]).dirRemoved =
      false :=
  ⟨rfl, rfl, rfl, rfl⟩

/-- Full characterization of `process_file_dir` on a nonempty batch none
of whose files aborts the loop. -/
theorem process_file_dir_no_abort (dp : String) (files : List FileEntry)
    (hne : (isort (fun a b => strLe a.name b.name) files).isEmpty = false)
    (hnoab : ∀ f ∈ files, fileAborts f = false) :
    process_file_dir dp files =
      ⟨some (FINAL_XML_DIR ++ "/" ++ pyBasename dp ++ ".mrx",
        COLLECTION_START ::
          (isort (fun a b => strLe a.name b.name) files).filterMap okCU ++
          [COLLECTION_END]),
        (isort (fun a b => strLe a.name b.name) files).filterMap okDel,
        [],
        (isort (fun a b => strLe a.name b.name) files).filterMap quarName,
        true, none⟩ := by
  have hnoab2 : ∀ f ∈ isort (fun a b => strLe a.name b.name) files,
      fileAborts f = false :=
    fun f hf => hnoab f ((mem_isort _ f files).mp hf)
  have hloop := batchLoop_no_abort _ hnoab2
  simp only [process_file_dir, hloop, hne, Bool.false_eq_true, if_false]

/-- C7 (amended): in a batch none of whose files aborts the loop (i.e.
every file either parses, with any DELETED file carrying a present control
number, or fails with the pass-handled quarantining `HarvesterException`),
every file parsed with status DELETED and control number `c` has `c`
appended to the deletion ledger, contributes nothing to the output
collection document (whose chunks are exactly the payloads of the
non-DELETED successfully parsed files, in sorted-filename order), and is
removed from the batch directory, which itself is removed. -/
theorem c7_deleted_file_handling (dp : String) (files : List FileEntry)
    (e : FileEntry) (c mrx : String)
    (hmem : e ∈ files)
    (hnoab : ∀ f ∈ files, fileAborts f = false)
    (hdel : extract_control_status_mrx e.doc = .ok (some c, DELETED, mrx)) :
    c ∈ (process_file_dir dp files).ledger ∧
    (process_file_dir dp files).remaining = [] ∧
    (process_file_dir dp files).dirRemoved = true ∧
    (process_file_dir dp files).escaped = none ∧
    (process_file_dir dp files).outFile =
      some (FINAL_XML_DIR ++ "/" ++ pyBasename dp ++ ".mrx",
        COLLECTION_START ::
          (isort (fun a b => strLe a.name b.name) files).filterMap okCU ++
          [COLLECTION_END]) ∧
    okCU e = none := by
  have hmem2 : e ∈ isort (fun a b => strLe a.name b.name) files :=
    (mem_isort _ e files).mpr hmem
  have hne : (isort (fun a b => strLe a.name b.name) files).isEmpty = false := by
    cases hsor : isort (fun a b => strLe a.name b.name) files with
    | nil =>
      rw [hsor] at hmem2
      cases hmem2
    | cons a as => rfl
  rw [process_file_dir_no_abort dp files hne hnoab]
  refine ⟨?_, rfl, rfl, rfl, rfl, ?_⟩
  · exact List.mem_filterMap.mpr ⟨e, hmem2, by simp [okDel, hdel]⟩
  · simp [okCU, hdel]

/-- C7 witness: a one-file batch holding only `docDeleted`. -/
theorem c7_deleted_file_handling_witness :
    ((⟨"a.xml", some docDeleted⟩ : FileEntry) ∈
      [(⟨"a.xml", some docDeleted⟩ : FileEntry)]) ∧
    (∀ f ∈ [(⟨"a.xml", some docDeleted⟩ : FileEntry)], fileAborts f = false) ∧
    extract_control_status_mrx (some docDeleted) =
      .ok (some "123", DELETED, "<rec1>x</rec1>") ∧
    "123" ∈ (process_file_dir "u/b1" [⟨"a.xml", some docDeleted⟩]).ledger ∧
    (process_file_dir "u/b1" [⟨"a.xml", some docDeleted⟩]).remaining = [] := by
  have hmem : (⟨"a.xml", some docDeleted⟩ : FileEntry) ∈
      [(⟨"a.xml", some docDeleted⟩ : FileEntry)] := List.mem_singleton.mpr rfl
  have hnoab : ∀ f ∈ [(⟨"a.xml", some docDeleted⟩ : FileEntry)],
      fileAborts f = false := by
    intro f hf
    rw [List.mem_singleton] at hf
    subst hf
    rfl
  have h := c7_deleted_file_handling "u/b1"
    [(⟨"a.xml", some docDeleted⟩ : FileEntry)] ⟨"a.xml", some docDeleted⟩
    "123" "<rec1>x</rec1>" hmem hnoab rfl
  exact ⟨hmem, hnoab, rfl, h.1, h.2.1⟩

/-- A `Record` whose control number and first version are already set. -/
def rC10 : RecordObj :=
  ⟨some "c1", some "d1", 0, some "<rec1>x</rec1>", some "<rec1>x</rec1>"⟩

/-- C10: once `control_no` is set, `add_version` never changes it:
`if self.control_no is None` is the only assignment, so a later snapshot
whose control number `cN` differs from the instance's `c` is accepted
without error and leaves `control_no = c` — no cross-check is
performed. -/
theorem c10_control_no_immutable (libs : PyLibs) (h : PyHeap)
    (r : RecordObj) (doc : Option XElem) (root : XElem)
    (c cN ds mrx fv : String)
    (hdoc : doc = some root)
    (hc : r.control_no = some c)
    (hfv : r.first_version = some fv)
    (hhv : extract_header_vals doc = .ok (some cN, ds))
    (hmx : extract_marcxml doc = .ok mrx)
    (_hne : cN ≠ c) :
    ∃ h2 r2, add_version libs h r doc = .ok (h2, r2) ∧
      r2.control_no = some c := by
  subst hdoc
  simp only [add_version, hhv, hmx, hc, hfv, Option.isNone_some,
    Bool.false_eq_true, if_false]
  exact ⟨_, _, rfl, rfl⟩

/-- C10 witness: a record keyed `c1` accepts a snapshot keyed `OTHER`
without error and keeps `control_no = c1`. -/
theorem c10_control_no_immutable_witness :
    rC10.control_no = some "c1" ∧
    extract_header_vals (some (sampleDoc "OTHER" "d2" [payload2])) =
      .ok (some "OTHER", "d2") ∧
    ("OTHER" : String) ≠ "c1" ∧
    ∃ h2 r2,
      add_version libsId initHeap rC10
        (some (sampleDoc "OTHER" "d2" [payload2])) = .ok (h2, r2) ∧
      r2.control_no = some "c1" :=
  ⟨rfl, rfl, by decide,
    c10_control_no_immutable libsId initHeap rC10
      (some (sampleDoc "OTHER" "d2" [payload2])) (sampleDoc "OTHER" "d2" [payload2])
      "c1" "OTHER" "d2" "<rec2>x</rec2>" "<rec1>x</rec1>"
      rfl rfl rfl rfl rfl (by decide)⟩

/-- C4 witness: the characterization instantiated at the error directory
holding `f` and `f-0`. -/
theorem c4_first_free_cumulative_name_witness :
    ∃ k, quarantineDest ["f", "f-0"] "f" = cumName "f" k ∧
      cumName "f" k ∉ (["f", "f-0"] : List String) ∧
      ∀ j < k, cumName "f" j ∈ (["f", "f-0"] : List String) :=
  c4_first_free_cumulative_name ["f", "f-0"] "f"

/-- C5 witness: the characterization instantiated at a document whose
metadata block is missing (plain error) and at an unparseable document
(quarantining error). -/
theorem c5_reader_failure_characterization_witness :
    extract_control_status_mrx (some docMetaMissing) = .error .plainExn ∧
    extract_control_status_mrx none = .error .harvesterExn :=
  ⟨(c5_reader_failure_characterization (some docMetaMissing)).2.1.mpr
      ⟨docMetaMissing, sampleHeader "c0" "d0", rfl, rfl, rfl, rfl⟩,
    (c5_reader_failure_characterization none).2.2.2 rfl⟩

/-- C8 witness: two quarantines of base name `f` against an error
directory already holding `f`. -/
theorem c8_quarantine_never_overwrites_witness :
    quarantineDest ["f"] "f" ∉ (["f"] : List String) ∧
    quarantineDest (quarantineDest ["f"] "f" :: ["f"]) "f" ≠
      quarantineDest ["f"] "f" ∧
    quarantineDest (quarantineDest ["f"] "f" :: ["f"]) "f" ∉
      (["f"] : List String) :=
  c8_quarantine_never_overwrites ["f"] "f" "f"

/-- C9 witness: a concrete empty batch directory. -/
theorem c9_empty_batch_witness :
    process_file_dir "u/empty" [] = ⟨none, [], [], [], true, none⟩ :=
  c9_empty_batch "u/empty"
